import Mathlib

set_option maxHeartbeats 1000000

/- Shallow embedding of the garbage-calendar core pipeline of this
   repository (kgc_core/src/garbage_client.rs and src/garbage_client.rs).
   Strings are modelled as lists of characters, calendar dates as explicit
   records; fallible code returns Except, and a Rust panic is modelled as
   the error branch of an outer Except layer. -/

/-- The character class of the whitespace regex used by the uid function
(the Unicode White_Space property, which is what the regex crate matches
for a whitespace class by default). -/
def whitespaceChars : List Char :=
  [Char.ofNat 0x09, Char.ofNat 0x0A, Char.ofNat 0x0B, Char.ofNat 0x0C, Char.ofNat 0x0D,
   ' ', Char.ofNat 0x85, Char.ofNat 0xA0, Char.ofNat 0x1680,
   Char.ofNat 0x2000, Char.ofNat 0x2001, Char.ofNat 0x2002, Char.ofNat 0x2003,
   Char.ofNat 0x2004, Char.ofNat 0x2005, Char.ofNat 0x2006, Char.ofNat 0x2007,
   Char.ofNat 0x2008, Char.ofNat 0x2009, Char.ofNat 0x200A,
   Char.ofNat 0x2028, Char.ofNat 0x2029, Char.ofNat 0x202F, Char.ofNat 0x205F,
   Char.ofNat 0x3000]

def isWhitespaceChar (c : Char) : Bool := whitespaceChars.contains c

/-- Replace every maximal run of whitespace characters by a single hyphen,
leaving all other characters unchanged.  The boolean argument records
whether the previously seen character was whitespace.  This is the effect
of replacing every match of a one-or-more-whitespace regex by a hyphen. -/
def collapseRuns : List Char → Bool → List Char
  | [], _ => []
  | c :: t, prevWs =>
    if isWhitespaceChar c then
      if prevWs then collapseRuns t true else '-' :: collapseRuns t true
    else c :: collapseRuns t false

/-- Collapse whitespace runs of a string to single hyphens, as the uid
function does to each of its three input fields. -/
def collapseWs (s : List Char) : List Char := collapseRuns s false

/-- Embedding of the uid function of garbage_client.rs (identical in both
source variants): collapse whitespace runs in each field and interpolate
the fields into the fixed identifier shape. -/
def uid (street street_number summary : List Char) : List Char :=
  "Abfuhrkalender_".data ++ collapseWs street ++ "_".data ++ collapseWs street_number
    ++ "_".data ++ collapseWs summary ++ "@karlsruhe.de".data

/-- A calendar date, as chrono's NaiveDate: a year together with a month
and day of month. -/
structure Date where
  year : Int
  month : Nat
  day : Nat
deriving DecidableEq, Repr

/-- Proleptic Gregorian leap-year test, as used by chrono. -/
def isLeapYear (y : Int) : Bool :=
  y % 4 == 0 && (y % 100 != 0 || y % 400 == 0)

def daysInMonth (y : Int) (m : Nat) : Nat :=
  if m == 2 then (if isLeapYear y then 29 else 28)
  else if m == 4 || m == 6 || m == 9 || m == 11 then 30
  else 31

/-- Embedding of chrono's NaiveDate construction from year, month and day:
some date exactly when the components form a valid proleptic Gregorian
date in chrono's representable year range (the exact extreme bound is
irrelevant here: every year reaching this function is parsed from at most
four digits). -/
def fromYmdOpt (y : Int) (m d : Nat) : Option Date :=
  if -262144 ≤ y ∧ y ≤ 262143 ∧ 1 ≤ m ∧ m ≤ 12 ∧ 1 ≤ d ∧ d ≤ daysInMonth y m
  then some ⟨y, m, d⟩ else none

def natChars (n : Nat) : List Char := Nat.toDigits 10 n

def padZeros (w : Nat) (s : List Char) : List Char :=
  List.replicate (w - s.length) '0' ++ s

/-- Date formatting with the fixed pattern of the source (four-digit year,
two-digit month and day, zero padded), as chrono formats it. -/
def formatDate (d : Date) : List Char :=
  (if d.year < 0 then '-' :: padZeros 4 (natChars d.year.natAbs)
   else padZeros 4 (natChars d.year.toNat))
    ++ padZeros 2 (natChars d.month) ++ padZeros 2 (natChars d.day)

/-- The five waste categories of the source enumeration, in declaration
order. -/
inductive WasteCategory
  | residual
  | organic
  | recyclable
  | paper
  | bulky
deriving DecidableEq, Repr, Fintype

def LABEL_RESIDUAL : List Char := "Restmüll".data
def LABEL_ORGANIC : List Char := "Bioabfall".data
def LABEL_RECYCLABLE : List Char := "Wertstoff".data
def LABEL_PAPER : List Char := "Papier".data
def LABEL_BULKY : List Char := "Sperrmüllabholung".data

/-- The source-language display label of each category. -/
def label : WasteCategory → List Char
  | .residual => LABEL_RESIDUAL
  | .organic => LABEL_ORGANIC
  | .recyclable => LABEL_RECYCLABLE
  | .paper => LABEL_PAPER
  | .bulky => LABEL_BULKY

/-- The fixed canonical category order of the synthesizer loop. -/
def canonicalOrder : List WasteCategory :=
  [.residual, .organic, .recyclable, .paper, .bulky]

/-- Does the first list start with the second one? -/
def listStartsWith : List Char → List Char → Bool
  | _, [] => true
  | [], _ :: _ => false
  | c :: t, n :: nt => c == n && listStartsWith t nt

/-- Substring containment of character lists, the behaviour of Rust's
str contains for the needles used here (both needle and haystack valid
unicode, so byte-level and character-level containment agree). -/
def strContains (h n : List Char) : Bool :=
  match h with
  | [] => n.isEmpty
  | c :: t => listStartsWith (c :: t) n || strContains t n

namespace KgcCore

/-- The waste data record of kgc_core/src/garbage_client.rs: one date
list per category. -/
structure WasteData where
  residual_waste : List Date
  organic_waste : List Date
  recyclable_waste : List Date
  paper_waste : List Date
  bulky_waste : List Date
deriving DecidableEq, Repr

def emptyWasteData : WasteData := ⟨[], [], [], [], []⟩

/-- The date list a waste data record holds for a category. -/
def categoryDates (w : WasteData) : WasteCategory → List Date
  | .residual => w.residual_waste
  | .organic => w.organic_waste
  | .recyclable => w.recyclable_waste
  | .paper => w.paper_waste
  | .bulky => w.bulky_waste

/-- The five-flag exclusion bitmask of the source, modelled as one boolean
per defined flag.  All values reachable in the program lie in the five
defined bits: callers build masks by or-ing basic flags, and the generated
inverted flags are truncated to the defined flags. -/
structure WasteTypeBitmask where
  residual : Bool
  organic : Bool
  recyclable : Bool
  paper : Bool
  bulky : Bool
deriving DecidableEq, Repr, Fintype

def WasteTypeBitmask.contains (e : WasteTypeBitmask) : WasteCategory → Bool
  | .residual => e.residual
  | .organic => e.organic
  | .recyclable => e.recyclable
  | .paper => e.paper
  | .bulky => e.bulky

def maskNone : WasteTypeBitmask := ⟨false, false, false, false, false⟩

/-- The single-flag mask of one category. -/
def flagOf : WasteCategory → WasteTypeBitmask
  | .residual => ⟨true, false, false, false, false⟩
  | .organic => ⟨false, true, false, false, false⟩
  | .recyclable => ⟨false, false, true, false, false⟩
  | .paper => ⟨false, false, false, true, false⟩
  | .bulky => ⟨false, false, false, false, true⟩

/-- Bitwise or of two masks. -/
def maskOr (a b : WasteTypeBitmask) : WasteTypeBitmask :=
  ⟨a.residual || b.residual, a.organic || b.organic, a.recyclable || b.recyclable,
   a.paper || b.paper, a.bulky || b.bulky⟩

/-- The generated inverted flag of a category: all defined flags except
the category's own one. -/
def invertedMask : WasteCategory → WasteTypeBitmask
  | .residual => ⟨false, true, true, true, true⟩
  | .organic => ⟨true, false, true, true, true⟩
  | .recyclable => ⟨true, true, false, true, true⟩
  | .paper => ⟨true, true, true, false, true⟩
  | .bulky => ⟨true, true, true, true, false⟩

def URL : List Char := "https://web6.karlsruhe.de/service/abfall/akal/akal.php".data

/-- One synthesized calendar event with the properties the builder chain
of get_event sets.  The timezone, the recurrence value tag and the
transparency marker are the fixed constants of the source. -/
structure IcalEvent where
  tzid : List Char
  uid : List Char
  changed : List Char
  dtstart : List Char
  summary : List Char
  rdate : List Char
  rdateValueParam : List Char
  location : List Char
  description : List Char
  transp : List Char
deriving DecidableEq, Repr

/-- The event get_event builds for a nonempty date list (spec-side helper:
for an empty list it uses a dummy anchor that get_event never exposes). -/
def mkEvent (street street_number : List Char) (dates : List Date)
    (summary changed : List Char) : IcalEvent :=
  { tzid := "Europe/Berlin".data
    uid := uid street street_number summary
    changed := changed
    dtstart := formatDate ((dates.head?).getD ⟨0, 0, 0⟩)
    summary := summary
    rdate := List.intercalate ",".data (dates.map formatDate)
    rdateValueParam := "DATE".data
    location := street ++ " ".data ++ street_number ++ ", Karlsruhe".data
    description := URL
    transp := "TRANSPARENT".data }

/-- Embedding of get_event: no event for an empty date list, otherwise the
built event, anchored at the first date of the list. -/
def get_event (street street_number : List Char) (dates : List Date)
    (summary changed : List Char) : Option IcalEvent :=
  match dates with
  | [] => none
  | _ :: _ => some (mkEvent street street_number dates summary changed)

/-- Embedding of the product-identifier label match of get_calendar: a
label exactly for the five inverted-flag constants. -/
def prodIdLabel (e : WasteTypeBitmask) : Option (List Char) :=
  if e = invertedMask .residual then some LABEL_RESIDUAL
  else if e = invertedMask .organic then some LABEL_ORGANIC
  else if e = invertedMask .recyclable then some LABEL_RECYCLABLE
  else if e = invertedMask .paper then some LABEL_PAPER
  else if e = invertedMask .bulky then some LABEL_BULKY
  else none

def PROD_ID : List (List Char) := ["Abfuhrkalender".data, "karlsruhe.de".data]

/-- Embedding of prod_id: optionally splice the label in front, prepend a
dash segment, and join the segments with double slashes. -/
def prod_id (lbl : Option (List Char)) : List Char :=
  let strings : List (List Char) :=
    match lbl with
    | some l => l :: PROD_ID
    | none => PROD_ID
  List.intercalate "//".data ("-".data :: strings)

/-- The synthesized calendar: header product identifier and event list. -/
structure IcalCalendar where
  prodid : List Char
  events : List IcalEvent
deriving DecidableEq, Repr

/-- The label, date-list and flag triple the synthesizer loop iterates
over, in its fixed order. -/
def entryList (w : WasteData) : List (List Char × List Date × WasteCategory) :=
  [(LABEL_RESIDUAL, w.residual_waste, .residual),
   (LABEL_ORGANIC, w.organic_waste, .organic),
   (LABEL_RECYCLABLE, w.recyclable_waste, .recyclable),
   (LABEL_PAPER, w.paper_waste, .paper),
   (LABEL_BULKY, w.bulky_waste, .bulky)]

/-- Embedding of get_calendar: build the header from the exclusion mask
and push, per loop entry, the built event exactly when one exists and the
category is not excluded.  The shared last-modified timestamp, captured
once per synthesis in the source, is an explicit parameter. -/
def get_calendar (street street_number : List Char) (w : WasteData)
    (e : WasteTypeBitmask) (changed : List Char) : IcalCalendar :=
  { prodid := prod_id (prodIdLabel e)
    events := (entryList w).filterMap (fun ent =>
      match get_event street street_number ent.2.1 ent.1 changed, e.contains ent.2.2 with
      | some ev, false => some ev
      | _, _ => none) }

end KgcCore

namespace KgcCore

/-- One property of a parsed iCalendar event: a name and an optional
value, as the ical crate represents it. -/
structure IcsProperty where
  name : List Char
  value : Option (List Char)
deriving DecidableEq, Repr

/-- One event of the parsed iCalendar stream. -/
structure RawIcalEvent where
  properties : List IcsProperty
deriving DecidableEq, Repr

/-- One calendar of the parsed iCalendar stream. -/
structure RawIcalCalendar where
  events : List RawIcalEvent
deriving DecidableEq, Repr

/-- Embedding of the property lookup helper of the source: the value of
the first property with the given name, if that property has one. -/
def getPropertyValue (ev : RawIcalEvent) (nm : List Char) : Option (List Char) :=
  (ev.properties.find? (fun p => p.name == nm)).bind (fun p => p.value)

/-- Digit-string evaluation for the integer parsers below. -/
def digitsVal (l : List Char) : Nat :=
  l.foldl (fun a c => a * 10 + (c.toNat - 48)) 0

def digitsToNat (l : List Char) : Option Nat :=
  if l.isEmpty then none
  else if l.all Char.isDigit then some (digitsVal l) else none

/-- Embedding of Rust's u32 string parse for the two-character month and
day slices: an optional plus sign, then decimal digits, within bounds. -/
def parseU32 (l : List Char) : Option Nat :=
  let digits := match l with
    | '+' :: rest => digitsToNat rest
    | _ => digitsToNat l
  digits.bind (fun v => if v ≤ 4294967295 then some v else none)

/-- Embedding of Rust's i32 string parse for the four-character year
slice: an optional sign, then decimal digits, within bounds. -/
def parseI32 (l : List Char) : Option Int :=
  match l with
  | '+' :: rest =>
    (digitsToNat rest).bind (fun v => if v ≤ 2147483647 then some (Int.ofNat v) else none)
  | '-' :: rest =>
    (digitsToNat rest).bind (fun v => if v ≤ 2147483648 then some (-(Int.ofNat v)) else none)
  | _ =>
    (digitsToNat l).bind (fun v => if v ≤ 2147483647 then some (Int.ofNat v) else none)

/-- Embedding of the start-date decoding of the ICS extractor: slice the
value at fixed offsets 0..4, 4..6 and 6..8, parse each slice, and build
the date.  A slice whose end lies beyond the value is a Rust panic,
modelled as the error branch; a slice that fails to parse aborts the
decoding with no date, and so does an invalid calendar date.  The source
evaluates the slices left to right, so a failed earlier parse prevents a
panic of a later slice.  (Values are treated as character lists; for the
ASCII values relevant here character offsets and Rust's byte offsets
agree.) -/
def decodeDtStart (s : List Char) : Except Unit (Option Date) :=
  if s.length < 4 then .error () else
  match parseI32 (s.take 4) with
  | none => .ok none
  | some y =>
    if s.length < 6 then .error () else
    match parseU32 ((s.drop 4).take 2) with
    | none => .ok none
    | some m =>
      if s.length < 8 then .error () else
      match parseU32 ((s.drop 6).take 2) with
      | none => .ok none
      | some d => .ok (fromYmdOpt y m d)

/-- The five independent substring-match pushes of the ICS extractor: the
date is appended to every category whose label occurs in the summary. -/
def appendMatches (w : WasteData) (s : List Char) (d : Date) : WasteData :=
  { residual_waste := w.residual_waste ++ (if strContains s LABEL_RESIDUAL then [d] else [])
    organic_waste := w.organic_waste ++ (if strContains s LABEL_ORGANIC then [d] else [])
    recyclable_waste := w.recyclable_waste ++ (if strContains s LABEL_RECYCLABLE then [d] else [])
    paper_waste := w.paper_waste ++ (if strContains s LABEL_PAPER then [d] else [])
    bulky_waste := w.bulky_waste ++ (if strContains s LABEL_BULKY then [d] else []) }

/-- Embedding of one loop iteration of the ICS extractor over one event:
read the summary, decode the start date (which can panic), skip the event
if either is absent, and otherwise push the date to every matching
category. -/
def icsEventApply (w : WasteData) (ev : RawIcalEvent) : Except Unit WasteData :=
  match getPropertyValue ev "DTSTART".data with
  | none => .ok w
  | some ds =>
    match decodeDtStart ds with
    | .error e => .error e
    | .ok none => .ok w
    | .ok (some d) =>
      match getPropertyValue ev "SUMMARY".data with
      | none => .ok w
      | some s => .ok (appendMatches w s d)

/-- The event loop of the ICS extractor over one calendar's events. -/
def foldIcsEvents (w : WasteData) : List RawIcalEvent → Except Unit WasteData
  | [] => .ok w
  | ev :: rest =>
    match icsEventApply w ev with
    | .error e => .error e
    | .ok w' => foldIcsEvents w' rest

/-- How a run of the ICS extractor can fail: a tokenizer error returned to
the caller, or a panic while slicing a start-date value. -/
inductive IcsFail
  | tokenizeError
  | panicked
deriving DecidableEq, Repr

/-- Embedding of the calendar-stream loop of the ICS extractor: the first
tokenizer error is propagated to the caller, and a panic aborts the run. -/
def parseIcsGo (w : WasteData) : List (Except Unit RawIcalCalendar) → Except IcsFail WasteData
  | [] => .ok w
  | .error _ :: _ => .error .tokenizeError
  | .ok cal :: rest =>
    match foldIcsEvents w cal.events with
    | .error _ => .error .panicked
    | .ok w' => parseIcsGo w' rest

/-- Embedding of the ICS-variant parse of kgc_core/src/garbage_client.rs,
over the stream of calendar results the tokenizer yields. -/
def parse (input : List (Except Unit RawIcalCalendar)) : Except IcsFail WasteData :=
  parseIcsGo emptyWasteData input

/-- The date an event contributes to a category, if any: present exactly
when the event has a summary containing the category label and a start
date that decodes to a valid calendar date. -/
def eventDate (c : WasteCategory) (ev : RawIcalEvent) : Option Date :=
  match getPropertyValue ev "SUMMARY".data, getPropertyValue ev "DTSTART".data with
  | some s, some ds =>
    match decodeDtStart ds with
    | .ok (some d) => if strContains s (label c) then some d else none
    | _ => none
  | _, _ => none

/-- All events of the non-erroneous calendars of a tokenizer stream, in
stream order. -/
def allEvents (input : List (Except Unit RawIcalCalendar)) : List RawIcalEvent :=
  input.flatMap (fun r =>
    match r with
    | .ok cal => cal.events
    | .error _ => [])

end KgcCore

namespace KgcHtml

/-- Abstraction of one row element of the parsed HTML document: the inner
markup of the first type column, of the first plain date column and of
the first bulky-waste date column below the row, when such elements
exist.  The node-tree navigation itself is done by a third-party HTML
parser in the source; the repository's own logic starts from these
per-row strings. -/
structure HtmlRow where
  typeCol : Option (List Char)
  dateCol : Option (List Char)
  bulkyDateCol : Option (List Char)
deriving DecidableEq, Repr

/-- The waste data record of src/garbage_client.rs: date lists for four
categories and at most one bulky-waste date. -/
structure WasteData where
  residual_waste : List Date
  organic_waste : List Date
  recyclable_waste : List Date
  paper_waste : List Date
  bulky_waste : Option Date
deriving DecidableEq, Repr

def emptyWasteData : WasteData := ⟨[], [], [], [], none⟩

/-- The regex word-character class, restricted to its ASCII fragment
(letters, digits and the underscore); the weekday abbreviations matched
in practice are ASCII. -/
def isWordChar (c : Char) : Bool := c.isAlphanum || c == '_'

/-- The regex digit class: ASCII digits together with a representative
non-ASCII decimal-digit block (the class is the Unicode Nd category, of
which we model the Arabic-Indic digits beside ASCII). -/
def isRegexDigit (c : Char) : Bool :=
  c.isDigit || (0x660 ≤ c.val && c.val ≤ 0x669)

def arabicDigit (n : Nat) : Char := Char.ofNat (0x660 + n)

/-- The unwrapped integer parse of a captured digit group: the regex
digit class matches non-ASCII digits which Rust's integer parser rejects,
making the unwrap a panic, modelled as the error branch. -/
def parseCaptureNat (l : List Char) : Except Unit Nat :=
  if l.all Char.isDigit then .ok (KgcCore.digitsVal l) else .error ()

/-- Embedding of the date_from_captures closure: parse the day, month and
year captures (each unwrap a potential panic) and validate the calendar
date, dropping invalid dates. -/
def dateFromCaptures (dcs mcs ycs : List Char) : Except Unit (Option Date) :=
  match parseCaptureNat dcs with
  | .error e => .error e
  | .ok day =>
    match parseCaptureNat mcs with
    | .error e => .error e
    | .ok month =>
      match parseCaptureNat ycs with
      | .error e => .error e
      | .ok year => .ok (fromYmdOpt (Int.ofNat year) month day)

/-- Matching of the weekday date pattern at one position: a closing angle
bracket, greedily consumed whitespace, a two-character weekday
abbreviation with a dot, one whitespace, the word den, one whitespace and
a dotted two-two-four digit group; on success the three digit captures
and the input remaining after the match. -/
def matchDateAt : List Char → Option (List Char × List Char × List Char × List Char)
  | '>' :: t =>
    match t.dropWhile isWhitespaceChar with
    | w1 :: w2 :: '.' :: s1 :: 'd' :: 'e' :: 'n' :: s2 :: d1 :: d2 :: '.' :: m1 :: m2
        :: '.' :: y1 :: y2 :: y3 :: y4 :: rem =>
      if isWordChar w1 && isWordChar w2 && isWhitespaceChar s1 && isWhitespaceChar s2
          && isRegexDigit d1 && isRegexDigit d2 && isRegexDigit m1 && isRegexDigit m2
          && isRegexDigit y1 && isRegexDigit y2 && isRegexDigit y3 && isRegexDigit y4
      then some ([d1, d2], [m1, m2], [y1, y2, y3, y4], rem)
      else none
    | _ => none
  | _ => none

/-- Scan for successive non-overlapping matches of the date pattern, as
the capture iterator of the source does, collect the valid dates of the
captures and drop invalid calendar dates individually; a capture whose
digits the integer parser rejects aborts with a panic.  The fuel bounds
the recursion and is initialised with the input length, which every step
strictly decreases, so the scan always runs to exhaustion. -/
def findDatesGo : Nat → List Char → Except Unit (List Date)
  | _, [] => .ok []
  | 0, _ :: _ => .ok []
  | fuel + 1, c :: t =>
    match matchDateAt (c :: t) with
    | some (dcs, mcs, ycs, rem) =>
      match dateFromCaptures dcs mcs ycs with
      | .error e => .error e
      | .ok none => findDatesGo fuel rem
      | .ok (some d) =>
        match findDatesGo fuel rem with
        | .error e => .error e
        | .ok ds => .ok (d :: ds)
    | none => findDatesGo fuel t

/-- The find_dates closure of the source over one date column. -/
def findDates (l : List Char) : Except Unit (List Date) :=
  findDatesGo l.length l

/-- Matching of the looser bulky-waste date pattern at one position: a
closing angle bracket, whitespace, and a dotted two-two-four digit group
with no weekday prefix. -/
def matchBulkyAt : List Char → Option (List Char × List Char × List Char)
  | '>' :: t =>
    match t.dropWhile isWhitespaceChar with
    | d1 :: d2 :: '.' :: m1 :: m2 :: '.' :: y1 :: y2 :: y3 :: y4 :: _ =>
      if isRegexDigit d1 && isRegexDigit d2 && isRegexDigit m1 && isRegexDigit m2
          && isRegexDigit y1 && isRegexDigit y2 && isRegexDigit y3 && isRegexDigit y4
      then some ([d1, d2], [m1, m2], [y1, y2, y3, y4])
      else none
    | _ => none
  | _ => none

/-- The first match of the bulky-waste date pattern, if any. -/
def findBulkyCaptures : List Char → Option (List Char × List Char × List Char)
  | [] => none
  | c :: t =>
    match matchBulkyAt (c :: t) with
    | some caps => some caps
    | none => findBulkyCaptures t

/-- The bulky-waste date of a column: the first pattern match, parsed and
validated (possibly a panic), flattened to at most one date. -/
def bulkyDateOf (l : List Char) : Except Unit (Option Date) :=
  match findBulkyCaptures l with
  | none => .ok none
  | some (dcs, mcs, ycs) => dateFromCaptures dcs mcs ycs

/-- Embedding of the row loop of the HTML-variant parse of
src/garbage_client.rs: a row without a type column is skipped; the five
labels are tested as substrings in fixed order and the first match
decides the row's category; a matching row's date column replaces that
category's collected dates; a matching row without its date column stops
the whole loop, keeping the state collected so far. -/
def parseLoop (st : WasteData) : List HtmlRow → Except Unit WasteData
  | [] => .ok st
  | row :: rest =>
    match row.typeCol with
    | none => parseLoop st rest
    | some tc =>
      if strContains tc LABEL_RESIDUAL then
        match row.dateCol with
        | none => .ok st
        | some dc =>
          match findDates dc with
          | .error e => .error e
          | .ok ds => parseLoop { st with residual_waste := ds } rest
      else if strContains tc LABEL_ORGANIC then
        match row.dateCol with
        | none => .ok st
        | some dc =>
          match findDates dc with
          | .error e => .error e
          | .ok ds => parseLoop { st with organic_waste := ds } rest
      else if strContains tc LABEL_RECYCLABLE then
        match row.dateCol with
        | none => .ok st
        | some dc =>
          match findDates dc with
          | .error e => .error e
          | .ok ds => parseLoop { st with recyclable_waste := ds } rest
      else if strContains tc LABEL_PAPER then
        match row.dateCol with
        | none => .ok st
        | some dc =>
          match findDates dc with
          | .error e => .error e
          | .ok ds => parseLoop { st with paper_waste := ds } rest
      else if strContains tc LABEL_BULKY then
        match row.bulkyDateCol with
        | none => .ok st
        | some dc =>
          match bulkyDateOf dc with
          | .error e => .error e
          | .ok od => parseLoop { st with bulky_waste := od } rest
      else parseLoop st rest

/-- Embedding of the HTML-variant parse: run the row loop from the empty
state.  The function itself always wraps its result in Ok; the outer
layer records a possible panic inside the loop. -/
def parse (rows : List HtmlRow) : Except Unit (Except Unit WasteData) :=
  (parseLoop emptyWasteData rows).map Except.ok

/-- The state with one list-valued category's dates replaced, as the
corresponding loop arm assigns them.  The bulky category stores a single
optional date through a differently-shaped arm and is treated by its own
statements, so its branch leaves the state unchanged here. -/
def withCategoryDates (st : WasteData) : WasteCategory → List Date → WasteData
  | .residual, ds => { st with residual_waste := ds }
  | .organic, ds => { st with organic_waste := ds }
  | .recyclable, ds => { st with recyclable_waste := ds }
  | .paper, ds => { st with paper_waste := ds }
  | .bulky, _ => st

/-- The labels tested before a category's own label in the fixed
substring-match order of the row loop. -/
def labelsBefore : WasteCategory → List (List Char)
  | .residual => []
  | .organic => [LABEL_RESIDUAL]
  | .recyclable => [LABEL_RESIDUAL, LABEL_ORGANIC]
  | .paper => [LABEL_RESIDUAL, LABEL_ORGANIC, LABEL_RECYCLABLE]
  | .bulky => [LABEL_RESIDUAL, LABEL_ORGANIC, LABEL_RECYCLABLE, LABEL_PAPER]

end KgcHtml

/-- Splitting a character list at an underscore is unambiguous when the
part before the underscore is underscore-free on both sides. -/
theorem append_underscore_inj {a b a' b' : List Char}
    (ha : '_' ∉ a) (ha' : '_' ∉ a')
    (h : a ++ '_' :: b = a' ++ '_' :: b') : a = a' ∧ b = b' := by
  induction a generalizing a' with
  | nil =>
    cases a' with
    | nil => simpa using h
    | cons x t =>
      exfalso
      simp only [List.nil_append, List.cons_append, List.cons.injEq] at h
      exact ha' (h.1 ▸ List.mem_cons_self x t)
  | cons x t ih =>
    cases a' with
    | nil =>
      exfalso
      simp only [List.nil_append, List.cons_append, List.cons.injEq] at h
      exact ha (h.1 ▸ List.mem_cons_self x t)
    | cons y u =>
      simp only [List.cons_append, List.cons.injEq] at h
      have hta : '_' ∉ t := fun hm => ha (List.mem_cons_of_mem x hm)
      have htu : '_' ∉ u := fun hm => ha' (List.mem_cons_of_mem y hm)
      obtain ⟨h1, h2⟩ := ih hta htu h.2
      exact ⟨by rw [h.1, h1], h2⟩

/-- Claim C1, counterexample: uid is not injective.  Two street inputs that
differ only in the length of a whitespace run produce the same identifier,
so changing one input does not always change the output. -/
theorem uid_whitespace_collision :
    uid "a b".data "1".data "Restmüll".data = uid "a  b".data "1".data "Restmüll".data
      ∧ "a b".data ≠ "a  b".data := by
  refine ⟨by decide, by decide⟩

/-- Claim C1, amended: uid deterministically produces exactly the string
Abfuhrkalender_(street)_(number)_(label)@karlsruhe.de with every
whitespace run of each field collapsed to a single hyphen, and two input
triples yield the same identifier exactly when their collapsed fields
coincide, provided the collapsed street and number fields contain no
underscore.  (Full injectivity fails: whitespace-run variants collide.) -/
theorem uid_format_and_collisions :
    ∀ street number lbl street' number' lbl' : List Char,
      uid street number lbl
          = "Abfuhrkalender_".data ++ collapseWs street ++ "_".data ++ collapseWs number
              ++ "_".data ++ collapseWs lbl ++ "@karlsruhe.de".data
        ∧ ('_' ∉ collapseWs street → '_' ∉ collapseWs street' →
           '_' ∉ collapseWs number → '_' ∉ collapseWs number' →
            (uid street number lbl = uid street' number' lbl' ↔
              (collapseWs street = collapseWs street'
                ∧ collapseWs number = collapseWs number'
                ∧ collapseWs lbl = collapseWs lbl'))) := by
  intro s n l s' n' l'
  refine ⟨rfl, fun hs hs' hn hn' => ⟨fun h => ?_, fun h => ?_⟩⟩
  · have hu : "_".data = ['_'] := rfl
    unfold uid at h
    rw [hu] at h
    simp only [List.append_assoc, List.singleton_append] at h
    have h1 := List.append_cancel_left h
    obtain ⟨h2, h3⟩ := append_underscore_inj hs hs' h1
    obtain ⟨h4, h5⟩ := append_underscore_inj hn hn' h3
    exact ⟨h2, h4, List.append_cancel_right h5⟩
  · unfold uid
    rw [h.1, h.2.1, h.2.2]

/-- Witness for the amended claim C1 at concrete inputs: a street with a
space and a street with a literal hyphen have the same collapsed form, so
their identifiers agree. -/
theorem uid_format_and_collisions_witness :
    uid "a b".data "1".data "x".data = uid "a-b".data "1".data "x".data := by
  have h := (uid_format_and_collisions "a b".data "1".data "x".data
      "a-b".data "1".data "x".data).2 (by decide) (by decide) (by decide) (by decide)
  exact h.mpr ⟨by decide, by decide, by decide⟩

/-- Filtering a mapped list is mapping the filtered preimages. -/
theorem filter_of_map {α β : Type} (f : α → β) (p : β → Bool) (l : List α) :
    (l.map f).filter p = (l.filter (fun a => p (f a))).map f := by
  induction l with
  | nil => rfl
  | cons a t ih => cases hp : p (f a) <;> simp [List.filter_cons, hp, ih]

namespace KgcCore

/-- The conditional event push of the synthesizer loop, over any entry
list: it keeps exactly the entries with a nonempty date list and an
unexcluded flag, and maps them to their built events. -/
theorem filterMap_push (s n ch : List Char) (e : WasteTypeBitmask)
    (l : List (List Char × List Date × WasteCategory)) :
    l.filterMap (fun ent =>
      match get_event s n ent.2.1 ent.1 ch, e.contains ent.2.2 with
      | some ev, false => some ev
      | _, _ => none)
    = (l.filter (fun ent => !ent.2.1.isEmpty && !e.contains ent.2.2)).map
        (fun ent => mkEvent s n ent.2.1 ent.1 ch) := by
  induction l with
  | nil => rfl
  | cons ent rest ih =>
    obtain ⟨lbl, dates, c⟩ := ent
    simp only [get_event] at ih ⊢
    cases hc : e.contains c <;> cases dates <;>
      simp [List.filterMap_cons, List.filter_cons, hc, ih]

/-- The event list of a synthesized calendar is the canonical category
order filtered to nonempty, unexcluded categories, mapped to the built
events. -/
theorem events_char (s n : List Char) (w : WasteData) (e : WasteTypeBitmask)
    (ch : List Char) :
    (get_calendar s n w e ch).events
      = (canonicalOrder.filter
          (fun c => !(categoryDates w c).isEmpty && !e.contains c)).map
          (fun c => mkEvent s n (categoryDates w c) (label c) ch) := by
  have hentry : entryList w
      = canonicalOrder.map (fun c => (label c, categoryDates w c, c)) := rfl
  have hev : (get_calendar s n w e ch).events
      = (entryList w).filterMap (fun ent =>
          match get_event s n ent.2.1 ent.1 ch, e.contains ent.2.2 with
          | some ev, false => some ev
          | _, _ => none) := rfl
  rw [hev, filterMap_push, hentry, filter_of_map, List.map_map]
  rfl

/-- Claim C2: the synthesized calendar contains exactly one event per
category with a nonempty date sequence that is not excluded, in the fixed
canonical order, and the event count is the number of such categories,
at most five. -/
theorem calendar_events_per_category :
    ∀ (street street_number : List Char) (w : WasteData) (e : WasteTypeBitmask)
      (ch : List Char),
      (get_calendar street street_number w e ch).events
          = (canonicalOrder.filter
              (fun c => !(categoryDates w c).isEmpty && !e.contains c)).map
              (fun c => mkEvent street street_number (categoryDates w c) (label c) ch)
        ∧ (get_calendar street street_number w e ch).events.length
            = (canonicalOrder.filter
                (fun c => !(categoryDates w c).isEmpty && !e.contains c)).length
        ∧ (get_calendar street street_number w e ch).events.length ≤ 5 := by
  intro s n w e ch
  refine ⟨events_char s n w e ch, ?_, ?_⟩
  · rw [events_char, List.length_map]
  · rw [events_char, List.length_map]
    exact le_trans (List.length_filter_le _ _) (by decide)

/-- Claim C3: an event built from a nonempty date sequence anchors its
start at the first sequence element (sequence order, not minimum) and
joins every formatted date of the sequence with commas, tagged as a date
value; and on the concrete residual-waste schedule of the claim the event
carries the stated recurrence string and start. -/
theorem event_dates_from_sequence :
    (∀ (street street_number : List Char) (d : Date) (ds : List Date)
        (summary ch : List Char),
        get_event street street_number (d :: ds) summary ch
            = some (mkEvent street street_number (d :: ds) summary ch)
          ∧ (mkEvent street street_number (d :: ds) summary ch).dtstart = formatDate d
          ∧ (mkEvent street street_number (d :: ds) summary ch).rdate
              = List.intercalate ",".data ((d :: ds).map formatDate)
          ∧ (mkEvent street street_number (d :: ds) summary ch).rdateValueParam
              = "DATE".data)
      ∧ ∀ ch : List Char,
          (get_calendar "street".data "69".data
              { residual_waste := [⟨2023, 6, 16⟩, ⟨2023, 6, 29⟩, ⟨2023, 7, 14⟩]
                organic_waste := []
                recyclable_waste := []
                paper_waste := []
                bulky_waste := [] } maskNone ch).events.map
              (fun ev => (ev.dtstart, ev.rdate))
            = [("20230616".data, "20230616,20230629,20230714".data)] := by
  refine ⟨fun s n d ds summary ch => ⟨rfl, rfl, rfl, rfl⟩, fun ch => ?_⟩
  rfl

theorem contains_maskOr (e f : WasteTypeBitmask) (c' : WasteCategory) :
    (maskOr e f).contains c' = (e.contains c' || f.contains c') := by
  cases c' <;> rfl

theorem contains_flagOf (c c' : WasteCategory) :
    (flagOf c).contains c' = (c == c') := by
  cases c <;> cases c' <;> rfl

theorem summary_beq_label (s n ch : List Char) (dates : List Date)
    (c c' : WasteCategory) :
    ((mkEvent s n dates (label c') ch).summary == label c) = (c' == c) := by
  have hs : (mkEvent s n dates (label c') ch).summary = label c' := rfl
  rw [hs]
  cases c <;> cases c' <;> decide

/-- Claim C4, amended: adding an unexcluded category C to the exclusion
set removes exactly the event whose summary is C's label from the event
list and leaves every other event byte-identical; the product-identifier
header, however, is not preserved in general (it changes whenever the
exclusion set crosses the complement-of-one shape). -/
theorem exclusion_removes_event :
    ∀ (street street_number : List Char) (w : WasteData) (e : WasteTypeBitmask)
      (ch : List Char) (c : WasteCategory),
      e.contains c = false →
        (get_calendar street street_number w (maskOr e (flagOf c)) ch).events
          = ((get_calendar street street_number w e ch).events).filter
              (fun ev => !(ev.summary == label c)) := by
  intro s n w e ch c hc
  rw [events_char, events_char, filter_of_map, List.filter_filter]
  congr 1
  refine List.filter_congr (fun c' _ => ?_)
  rw [contains_maskOr, contains_flagOf, summary_beq_label]
  rcases eq_or_ne c c' with rfl | hne
  · simp
  · have h1 : (c == c') = false := by
      simpa using hne
    have h2 : (c' == c) = false := by
      simpa using hne.symm
    simp [h1, h2]

/-- Witness for the amended claim C4 at a concrete input: with residual
and bulky dates present and nothing excluded, additionally excluding
bulky removes exactly the bulky event. -/
theorem exclusion_removes_event_witness :
    (get_calendar "s".data "1".data
        ⟨[⟨2023, 6, 16⟩], [], [], [], [⟨2023, 7, 12⟩]⟩
        (maskOr maskNone (flagOf .bulky)) "t".data).events
      = ((get_calendar "s".data "1".data
          ⟨[⟨2023, 6, 16⟩], [], [], [], [⟨2023, 7, 12⟩]⟩
          maskNone "t".data).events).filter
          (fun ev => !(ev.summary == label .bulky)) :=
  exclusion_removes_event "s".data "1".data
    ⟨[⟨2023, 6, 16⟩], [], [], [], [⟨2023, 7, 12⟩]⟩ maskNone "t".data .bulky rfl

/-- Claim C4, counterexample: with three categories excluded and no dates
at all, additionally excluding bulky leaves the (empty) event list
unchanged, yet the resulting calendar differs from the original one,
because the exclusion set became the complement of residual and the
product-identifier header gained the residual label.  So the new calendar
is not the old calendar with one event removed. -/
theorem exclusion_header_counterexample :
    (get_calendar "street".data "69".data emptyWasteData
        (maskOr ⟨false, true, true, true, false⟩ (flagOf .bulky))
        "20230101T000000".data).events
      = (get_calendar "street".data "69".data emptyWasteData
          ⟨false, true, true, true, false⟩ "20230101T000000".data).events
    ∧ get_calendar "street".data "69".data emptyWasteData
        (maskOr ⟨false, true, true, true, false⟩ (flagOf .bulky))
        "20230101T000000".data
      ≠ get_calendar "street".data "69".data emptyWasteData
          ⟨false, true, true, true, false⟩ "20230101T000000".data := by
  exact ⟨rfl, by decide⟩

/-- Claim C5: the synthesizer's header carries a category label exactly
when the exclusion mask is one of the five inverted-flag values, that is,
the complement of exactly one category, and then the label is the single
included category's; every other exclusion mask yields a header without a
category hint, and the calendar header is always the product identifier
derived from that optional label. -/
theorem prod_id_label_characterization :
    ∀ e : WasteTypeBitmask,
      ((∃ c, e = invertedMask c ∧ prodIdLabel e = some (label c))
        ∨ ((∀ c, e ≠ invertedMask c) ∧ prodIdLabel e = none))
      ∧ ∀ (street street_number : List Char) (w : WasteData) (ch : List Char),
          (get_calendar street street_number w e ch).prodid = prod_id (prodIdLabel e) := by
  intro e
  refine ⟨?_, fun s n w ch => rfl⟩
  revert e
  decide

end KgcCore

namespace KgcCore

theorem categoryDates_appendMatches (w : WasteData) (s : List Char) (d : Date)
    (c : WasteCategory) :
    categoryDates (appendMatches w s d) c
      = categoryDates w c ++ (if strContains s (label c) then [d] else []) := by
  cases c <;> rfl

theorem categoryDates_empty (c : WasteCategory) :
    categoryDates emptyWasteData c = [] := by
  cases c <;> rfl

/-- A successful event-loop run extends every category's date list by
exactly the dates the processed events contribute, in event order. -/
theorem foldIcsEvents_ok (c : WasteCategory) :
    ∀ (evs : List RawIcalEvent) (w w' : WasteData),
      foldIcsEvents w evs = .ok w' →
        categoryDates w' c = categoryDates w c ++ evs.filterMap (eventDate c) := by
  intro evs
  induction evs with
  | nil =>
    intro w w' h
    cases h
    simp
  | cons ev rest ih =>
    intro w w' h
    rw [foldIcsEvents] at h
    cases he : icsEventApply w ev with
    | error e => rw [he] at h; cases h
    | ok w1 =>
      rw [he] at h
      have hrest := ih w1 w' h
      have hstep : categoryDates w1 c
          = categoryDates w c ++ (eventDate c ev).toList := by
        rw [icsEventApply] at he
        cases hd : getPropertyValue ev "DTSTART".data with
        | none =>
          simp only [hd, Except.ok.injEq] at he
          subst he
          cases hs : getPropertyValue ev "SUMMARY".data <;> simp [eventDate, hd, hs]
        | some ds =>
          simp only [hd] at he
          cases hdec : decodeDtStart ds with
          | error e2 => simp only [hdec] at he; cases he
          | ok od =>
            simp only [hdec] at he
            cases od with
            | none =>
              simp only [Except.ok.injEq] at he
              subst he
              cases hs : getPropertyValue ev "SUMMARY".data <;>
                simp [eventDate, hd, hs, hdec]
            | some d =>
              cases hs : getPropertyValue ev "SUMMARY".data with
              | none =>
                simp only [hs, Except.ok.injEq] at he
                subst he
                simp [eventDate, hd, hs]
              | some s =>
                simp only [hs, Except.ok.injEq] at he
                subst he
                rw [categoryDates_appendMatches]
                cases hm : strContains s (label c) <;>
                  simp [eventDate, hd, hs, hdec, hm]
      rw [hrest, hstep, List.filterMap_cons]
      cases hev : eventDate c ev <;> simp [hev]
  
/-- A successful run of the calendar-stream loop extends every category's
date list by the contributions of all events of the stream. -/
theorem parseIcsGo_ok (c : WasteCategory) :
    ∀ (input : List (Except Unit RawIcalCalendar)) (w w' : WasteData),
      parseIcsGo w input = .ok w' →
        categoryDates w' c = categoryDates w c ++ (allEvents input).filterMap (eventDate c) := by
  intro input
  induction input with
  | nil =>
    intro w w' h
    cases h
    simp [allEvents]
  | cons r rest ih =>
    intro w w' h
    cases r with
    | error e => rw [parseIcsGo] at h; cases h
    | ok cal =>
      rw [parseIcsGo] at h
      cases hf : foldIcsEvents w cal.events with
      | error e => rw [hf] at h; cases h
      | ok w1 =>
        rw [hf] at h
        have h1 := foldIcsEvents_ok c cal.events w w1 hf
        have h2 := ih w1 w' h
        have hall : allEvents (.ok cal :: rest) = cal.events ++ allEvents rest := by
          simp [allEvents]
        rw [h2, h1, hall, List.filterMap_append, List.append_assoc]

/-- Claim C9: whenever the ICS extractor succeeds, each category's date
list consists of exactly the decoded start dates of the events whose
summary contains the category's label, in event order; an event whose
summary contains several labels contributes its date to every matching
category independently. -/
theorem ics_parse_category_dates :
    ∀ (input : List (Except Unit RawIcalCalendar)) (w : WasteData) (c : WasteCategory),
      parse input = .ok w →
        categoryDates w c = (allEvents input).filterMap (eventDate c) := by
  intro input w c h
  have := parseIcsGo_ok c input emptyWasteData w h
  rw [this, categoryDates_empty, List.nil_append]

/-- Witness for claim C9 at a concrete input: one event whose summary
contains both the residual and the paper label contributes its date to
both categories. -/
theorem ics_parse_category_dates_witness :
    parse [.ok ⟨[⟨[⟨"SUMMARY".data, some "Restmüll und Papier".data⟩,
        ⟨"DTSTART".data, some "20230616".data⟩]⟩]⟩]
        = .ok ⟨[⟨2023, 6, 16⟩], [], [], [⟨2023, 6, 16⟩], []⟩
      ∧ categoryDates ⟨[⟨2023, 6, 16⟩], [], [], [⟨2023, 6, 16⟩], []⟩ .residual
          = [⟨2023, 6, 16⟩]
      ∧ categoryDates ⟨[⟨2023, 6, 16⟩], [], [], [⟨2023, 6, 16⟩], []⟩ .paper
          = [⟨2023, 6, 16⟩] := by
  refine ⟨by rfl, ?_, ?_⟩
  · exact (ics_parse_category_dates
      [.ok ⟨[⟨[⟨"SUMMARY".data, some "Restmüll und Papier".data⟩,
          ⟨"DTSTART".data, some "20230616".data⟩]⟩]⟩]
      ⟨[⟨2023, 6, 16⟩], [], [], [⟨2023, 6, 16⟩], []⟩ .residual (by rfl)).trans (by rfl)
  · exact (ics_parse_category_dates
      [.ok ⟨[⟨[⟨"SUMMARY".data, some "Restmüll und Papier".data⟩,
          ⟨"DTSTART".data, some "20230616".data⟩]⟩]⟩]
      ⟨[⟨2023, 6, 16⟩], [], [], [⟨2023, 6, 16⟩], []⟩ .paper (by rfl)).trans (by rfl)

/-- Claim C8: the ICS extractor is supposed to skip an event with an
unparsable start date, but a start-date value shorter than eight
characters whose leading slices parse as numbers makes the extractor
slice beyond the end of the value, a panic: the run aborts instead of
skipping the event. -/
theorem ics_parse_short_dtstart_panics :
    parse [.ok ⟨[⟨[⟨"SUMMARY".data, some "Restmüll".data⟩,
        ⟨"DTSTART".data, some "2023".data⟩]⟩]⟩]
        = .error .panicked
      ∧ decodeDtStart "2023".data = .error () := by
  exact ⟨by rfl, by rfl⟩

end KgcCore

/-- Claim C6, counterexample: when two rows supply dates for the residual
category, the resulting schedule holds the last row's dates, not the
first row's — alone, the first row yields the June 16 date, but followed
by a second residual row its dates are overwritten by the June 29 date. -/
theorem html_last_row_wins_counterexample :
    KgcHtml.parse
        [⟨some "Restmüll".data, some ">Fr. den 16.06.2023".data, none⟩,
         ⟨some "Restmüll".data, some ">Do. den 29.06.2023".data, none⟩]
        = .ok (.ok ⟨[⟨2023, 6, 29⟩], [], [], [], none⟩)
      ∧ KgcHtml.parse [⟨some "Restmüll".data, some ">Fr. den 16.06.2023".data, none⟩]
          = .ok (.ok ⟨[⟨2023, 6, 16⟩], [], [], [], none⟩)
      ∧ (⟨2023, 6, 29⟩ : Date) ≠ ⟨2023, 6, 16⟩ := by
  exact ⟨rfl, rfl, by decide⟩

/-- A row whose type column first matches a list-valued category's label
and whose date column parses replaces exactly that category's dates. -/
theorem parseLoop_replace_dates (st : KgcHtml.WasteData) (rest : List KgcHtml.HtmlRow)
    (tc dc : List Char) (bc : Option (List Char)) (ds : List Date)
    (c : WasteCategory) (hne : c ≠ .bulky)
    (hbef : ∀ l ∈ KgcHtml.labelsBefore c, strContains tc l = false)
    (hc : strContains tc (label c) = true)
    (hds : KgcHtml.findDates dc = .ok ds) :
    KgcHtml.parseLoop st (⟨some tc, some dc, bc⟩ :: rest)
      = KgcHtml.parseLoop (KgcHtml.withCategoryDates st c ds) rest := by
  cases c with
  | residual =>
    simp only [label] at hc
    simp [KgcHtml.parseLoop, KgcHtml.withCategoryDates, hc, hds]
  | organic =>
    have h1 : strContains tc LABEL_RESIDUAL = false :=
      hbef LABEL_RESIDUAL (by simp [KgcHtml.labelsBefore])
    simp only [label] at hc
    simp [KgcHtml.parseLoop, KgcHtml.withCategoryDates, h1, hc, hds]
  | recyclable =>
    have h1 : strContains tc LABEL_RESIDUAL = false :=
      hbef LABEL_RESIDUAL (by simp [KgcHtml.labelsBefore])
    have h2 : strContains tc LABEL_ORGANIC = false :=
      hbef LABEL_ORGANIC (by simp [KgcHtml.labelsBefore])
    simp only [label] at hc
    simp [KgcHtml.parseLoop, KgcHtml.withCategoryDates, h1, h2, hc, hds]
  | paper =>
    have h1 : strContains tc LABEL_RESIDUAL = false :=
      hbef LABEL_RESIDUAL (by simp [KgcHtml.labelsBefore])
    have h2 : strContains tc LABEL_ORGANIC = false :=
      hbef LABEL_ORGANIC (by simp [KgcHtml.labelsBefore])
    have h3 : strContains tc LABEL_RECYCLABLE = false :=
      hbef LABEL_RECYCLABLE (by simp [KgcHtml.labelsBefore])
    simp only [label] at hc
    simp [KgcHtml.parseLoop, KgcHtml.withCategoryDates, h1, h2, h3, hc, hds]
  | bulky => exact absurd rfl hne

/-- A row whose type column first matches the bulky label and whose bulky
date column parses replaces the optional bulky date. -/
theorem parseLoop_replace_bulky (st : KgcHtml.WasteData) (rest : List KgcHtml.HtmlRow)
    (tc bdc : List Char) (dcol : Option (List Char)) (od : Option Date)
    (hbef : ∀ l ∈ KgcHtml.labelsBefore .bulky, strContains tc l = false)
    (hc : strContains tc LABEL_BULKY = true)
    (hod : KgcHtml.bulkyDateOf bdc = .ok od) :
    KgcHtml.parseLoop st (⟨some tc, dcol, some bdc⟩ :: rest)
      = KgcHtml.parseLoop { st with bulky_waste := od } rest := by
  have h1 : strContains tc LABEL_RESIDUAL = false :=
    hbef LABEL_RESIDUAL (by simp [KgcHtml.labelsBefore])
  have h2 : strContains tc LABEL_ORGANIC = false :=
    hbef LABEL_ORGANIC (by simp [KgcHtml.labelsBefore])
  have h3 : strContains tc LABEL_RECYCLABLE = false :=
    hbef LABEL_RECYCLABLE (by simp [KgcHtml.labelsBefore])
  have h4 : strContains tc LABEL_PAPER = false :=
    hbef LABEL_PAPER (by simp [KgcHtml.labelsBefore])
  simp [KgcHtml.parseLoop, h1, h2, h3, h4, hc, hod]

/-- A row whose type column first matches a list-valued category's label
but whose date column is absent stops the loop with the state kept. -/
theorem parseLoop_stop_no_date_col (st : KgcHtml.WasteData)
    (rest : List KgcHtml.HtmlRow) (tc : List Char) (bc : Option (List Char))
    (c : WasteCategory) (hne : c ≠ .bulky)
    (hbef : ∀ l ∈ KgcHtml.labelsBefore c, strContains tc l = false)
    (hc : strContains tc (label c) = true) :
    KgcHtml.parseLoop st (⟨some tc, none, bc⟩ :: rest) = .ok st := by
  cases c with
  | residual =>
    simp only [label] at hc
    simp [KgcHtml.parseLoop, hc]
  | organic =>
    have h1 : strContains tc LABEL_RESIDUAL = false :=
      hbef LABEL_RESIDUAL (by simp [KgcHtml.labelsBefore])
    simp only [label] at hc
    simp [KgcHtml.parseLoop, h1, hc]
  | recyclable =>
    have h1 : strContains tc LABEL_RESIDUAL = false :=
      hbef LABEL_RESIDUAL (by simp [KgcHtml.labelsBefore])
    have h2 : strContains tc LABEL_ORGANIC = false :=
      hbef LABEL_ORGANIC (by simp [KgcHtml.labelsBefore])
    simp only [label] at hc
    simp [KgcHtml.parseLoop, h1, h2, hc]
  | paper =>
    have h1 : strContains tc LABEL_RESIDUAL = false :=
      hbef LABEL_RESIDUAL (by simp [KgcHtml.labelsBefore])
    have h2 : strContains tc LABEL_ORGANIC = false :=
      hbef LABEL_ORGANIC (by simp [KgcHtml.labelsBefore])
    have h3 : strContains tc LABEL_RECYCLABLE = false :=
      hbef LABEL_RECYCLABLE (by simp [KgcHtml.labelsBefore])
    simp only [label] at hc
    simp [KgcHtml.parseLoop, h1, h2, h3, hc]
  | bulky => exact absurd rfl hne

/-- A row whose type column first matches the bulky label but whose bulky
date column is absent stops the loop with the state kept. -/
theorem parseLoop_stop_no_bulky_col (st : KgcHtml.WasteData)
    (rest : List KgcHtml.HtmlRow) (tc : List Char) (dcol : Option (List Char))
    (hbef : ∀ l ∈ KgcHtml.labelsBefore .bulky, strContains tc l = false)
    (hc : strContains tc LABEL_BULKY = true) :
    KgcHtml.parseLoop st (⟨some tc, dcol, none⟩ :: rest) = .ok st := by
  have h1 : strContains tc LABEL_RESIDUAL = false :=
    hbef LABEL_RESIDUAL (by simp [KgcHtml.labelsBefore])
  have h2 : strContains tc LABEL_ORGANIC = false :=
    hbef LABEL_ORGANIC (by simp [KgcHtml.labelsBefore])
  have h3 : strContains tc LABEL_RECYCLABLE = false :=
    hbef LABEL_RECYCLABLE (by simp [KgcHtml.labelsBefore])
  have h4 : strContains tc LABEL_PAPER = false :=
    hbef LABEL_PAPER (by simp [KgcHtml.labelsBefore])
  simp [KgcHtml.parseLoop, h1, h2, h3, h4, hc]

/-- Claim C6, amended: no dedup or sort is applied to any category's date
sequence; in the HTML source, a row whose type column first matches any
category's label replaces that category's previously collected dates with
the row's parsed dates (for the bulky category, its single optional
date), so the last processed matching row wins for every category; in the
ICS source, each event with a summary and a decodable start date appends
that date to every matching category at the end, so dates accumulate in
parse order. -/
theorem schedule_accumulation_semantics :
    (∀ (st : KgcHtml.WasteData) (rest : List KgcHtml.HtmlRow)
        (tc dc : List Char) (bc : Option (List Char)) (ds : List Date)
        (c : WasteCategory), c ≠ .bulky →
        (∀ l ∈ KgcHtml.labelsBefore c, strContains tc l = false) →
        strContains tc (label c) = true →
        KgcHtml.findDates dc = .ok ds →
          KgcHtml.parseLoop st (⟨some tc, some dc, bc⟩ :: rest)
            = KgcHtml.parseLoop (KgcHtml.withCategoryDates st c ds) rest)
      ∧ (∀ (st : KgcHtml.WasteData) (rest : List KgcHtml.HtmlRow)
          (tc bdc : List Char) (dcol : Option (List Char)) (od : Option Date),
          (∀ l ∈ KgcHtml.labelsBefore .bulky, strContains tc l = false) →
          strContains tc LABEL_BULKY = true →
          KgcHtml.bulkyDateOf bdc = .ok od →
            KgcHtml.parseLoop st (⟨some tc, dcol, some bdc⟩ :: rest)
              = KgcHtml.parseLoop { st with bulky_waste := od } rest)
      ∧ (∀ (w : KgcCore.WasteData) (ev : KgcCore.RawIcalEvent)
          (s ds : List Char) (d : Date),
          KgcCore.getPropertyValue ev "SUMMARY".data = some s →
          KgcCore.getPropertyValue ev "DTSTART".data = some ds →
          KgcCore.decodeDtStart ds = .ok (some d) →
            KgcCore.icsEventApply w ev = .ok (KgcCore.appendMatches w s d))
      ∧ ∀ (w : KgcCore.WasteData) (s : List Char) (d : Date) (c : WasteCategory),
          KgcCore.categoryDates (KgcCore.appendMatches w s d) c
            = KgcCore.categoryDates w c
                ++ (if strContains s (label c) then [d] else []) := by
  refine ⟨fun st rest tc dc bc ds c hne hbef hc hds => ?_,
    fun st rest tc bdc dcol od hbef hc hod => ?_,
    fun w ev s ds d hs hd hdec => ?_,
    fun w s d c => KgcCore.categoryDates_appendMatches w s d c⟩
  · exact parseLoop_replace_dates st rest tc dc bc ds c hne hbef hc hds
  · exact parseLoop_replace_bulky st rest tc bdc dcol od hbef hc hod
  · rw [KgcCore.icsEventApply]
    simp only [hd, hdec, hs]

/-- Witness for the amended claim C6 at concrete inputs: a second organic
row replaces the collected organic dates, a bulky row replaces the
optional bulky date, and a concrete ICS event appends its date to the
matching categories. -/
theorem schedule_accumulation_semantics_witness :
    KgcHtml.parseLoop ⟨[], [⟨2023, 6, 7⟩], [], [], none⟩
        [⟨some "Bioabfall".data, some ">Do. den 29.06.2023".data, none⟩]
        = KgcHtml.parseLoop
            (KgcHtml.withCategoryDates ⟨[], [⟨2023, 6, 7⟩], [], [], none⟩
              .organic [⟨2023, 6, 29⟩]) []
      ∧ KgcHtml.parseLoop ⟨[], [], [], [], some ⟨2023, 7, 12⟩⟩
          [⟨some "Sperrmüllabholung".data, none, some ">26.07.2023".data⟩]
          = KgcHtml.parseLoop ⟨[], [], [], [], some ⟨2023, 7, 26⟩⟩ []
      ∧ KgcCore.icsEventApply KgcCore.emptyWasteData
          ⟨[⟨"SUMMARY".data, some "Restmüll".data⟩,
            ⟨"DTSTART".data, some "20230616".data⟩]⟩
          = .ok (KgcCore.appendMatches KgcCore.emptyWasteData "Restmüll".data
              ⟨2023, 6, 16⟩) := by
  refine ⟨?_, ?_, ?_⟩
  · exact schedule_accumulation_semantics.1 ⟨[], [⟨2023, 6, 7⟩], [], [], none⟩ []
      "Bioabfall".data ">Do. den 29.06.2023".data none [⟨2023, 6, 29⟩] .organic
      (by decide) (by decide) (by decide) (by rfl)
  · exact schedule_accumulation_semantics.2.1 ⟨[], [], [], [], some ⟨2023, 7, 12⟩⟩ []
      "Sperrmüllabholung".data ">26.07.2023".data none (some ⟨2023, 7, 26⟩)
      (by decide) (by decide) (by rfl)
  · exact schedule_accumulation_semantics.2.2.1 KgcCore.emptyWasteData
      ⟨[⟨"SUMMARY".data, some "Restmüll".data⟩, ⟨"DTSTART".data, some "20230616".data⟩]⟩
      "Restmüll".data "20230616".data ⟨2023, 6, 16⟩ (by rfl) (by rfl) (by rfl)

/-- Claim C7, counterexample: a row whose type column matches a category
but whose date column is absent stops the whole loop, so it does affect
the extraction of the remaining rows — the organic row alone yields its
date, but preceded by a residual row without a date column it is never
processed. -/
theorem html_break_counterexample :
    KgcHtml.parse
        [⟨some "Restmüll".data, none, none⟩,
         ⟨some "Bioabfall".data, some ">Fr. den 16.06.2023".data, none⟩]
        = .ok (.ok KgcHtml.emptyWasteData)
      ∧ KgcHtml.parse [⟨some "Bioabfall".data, some ">Fr. den 16.06.2023".data, none⟩]
          = .ok (.ok ⟨[], [⟨2023, 6, 16⟩], [], [], none⟩) := by
  exact ⟨rfl, rfl⟩

/-- Claim C7, amended: the HTML-variant extractor never reports an error
for missing pieces; every category defaults to empty (the empty document
yields the empty schedule); a row without a type column, or whose type
column matches no label, is skipped; within a row the five labels are
tested as substrings in fixed order and the first matching label decides
the row's category, whichever category that is (later labels matching the
same row change nothing); and a row whose type column matches any
category's label but whose category-appropriate date column is absent
leaves that category's dates as previously collected (initially empty,
not an error), while stopping the processing of all remaining rows. -/
theorem html_row_matching_and_break :
    KgcHtml.parse [] = .ok (.ok KgcHtml.emptyWasteData)
      ∧ (∀ (st : KgcHtml.WasteData) (rest : List KgcHtml.HtmlRow)
          (dcol bcol : Option (List Char)),
          KgcHtml.parseLoop st (⟨none, dcol, bcol⟩ :: rest) = KgcHtml.parseLoop st rest)
      ∧ (∀ (st : KgcHtml.WasteData) (rest : List KgcHtml.HtmlRow)
          (tc : List Char) (dcol bcol : Option (List Char)),
          strContains tc LABEL_RESIDUAL = false →
          strContains tc LABEL_ORGANIC = false →
          strContains tc LABEL_RECYCLABLE = false →
          strContains tc LABEL_PAPER = false →
          strContains tc LABEL_BULKY = false →
            KgcHtml.parseLoop st (⟨some tc, dcol, bcol⟩ :: rest)
              = KgcHtml.parseLoop st rest)
      ∧ (∀ (st : KgcHtml.WasteData) (rest : List KgcHtml.HtmlRow)
          (tc dc : List Char) (bc : Option (List Char)) (ds : List Date)
          (c : WasteCategory), c ≠ .bulky →
          (∀ l ∈ KgcHtml.labelsBefore c, strContains tc l = false) →
          strContains tc (label c) = true →
          KgcHtml.findDates dc = .ok ds →
            KgcHtml.parseLoop st (⟨some tc, some dc, bc⟩ :: rest)
              = KgcHtml.parseLoop (KgcHtml.withCategoryDates st c ds) rest)
      ∧ (∀ (st : KgcHtml.WasteData) (rest : List KgcHtml.HtmlRow)
          (tc : List Char) (bc : Option (List Char)) (c : WasteCategory),
          c ≠ .bulky →
          (∀ l ∈ KgcHtml.labelsBefore c, strContains tc l = false) →
          strContains tc (label c) = true →
            KgcHtml.parseLoop st (⟨some tc, none, bc⟩ :: rest) = .ok st)
      ∧ (∀ (st : KgcHtml.WasteData) (rest : List KgcHtml.HtmlRow)
          (tc : List Char) (dcol : Option (List Char)),
          (∀ l ∈ KgcHtml.labelsBefore .bulky, strContains tc l = false) →
          strContains tc LABEL_BULKY = true →
            KgcHtml.parseLoop st (⟨some tc, dcol, none⟩ :: rest) = .ok st) := by
  refine ⟨rfl, fun st rest dcol bcol => rfl,
    fun st rest tc dcol bcol h1 h2 h3 h4 h5 => ?_,
    fun st rest tc dc bc ds c hne hbef hc hds => ?_,
    fun st rest tc bc c hne hbef hc => ?_,
    fun st rest tc dcol hbef hc => ?_⟩
  · simp [KgcHtml.parseLoop, h1, h2, h3, h4, h5]
  · exact parseLoop_replace_dates st rest tc dc bc ds c hne hbef hc hds
  · exact parseLoop_stop_no_date_col st rest tc bc c hne hbef hc
  · exact parseLoop_stop_no_bulky_col st rest tc dcol hbef hc

/-- Witness for the amended claim C7 at concrete inputs, one per
hypothesis-bearing conjunct: an unmatched row is skipped; a row matching
both the paper and the bulky label updates only the paper dates (first
match wins); a paper row without its date column stops with the state
kept; and a bulky row without its bulky date column stops likewise. -/
theorem html_row_matching_and_break_witness :
    KgcHtml.parseLoop KgcHtml.emptyWasteData [⟨some "Glas".data, none, none⟩]
        = KgcHtml.parseLoop KgcHtml.emptyWasteData []
      ∧ KgcHtml.parseLoop KgcHtml.emptyWasteData
          [⟨some "Papier und Sperrmüllabholung".data,
            some ">Fr. den 16.06.2023".data, none⟩]
          = KgcHtml.parseLoop
              (KgcHtml.withCategoryDates KgcHtml.emptyWasteData .paper
                [⟨2023, 6, 16⟩]) []
      ∧ KgcHtml.parseLoop ⟨[], [⟨2023, 6, 7⟩], [], [], none⟩
          [⟨some "Papier".data, none, none⟩,
           ⟨some "Bioabfall".data, some ">Fr. den 16.06.2023".data, none⟩]
          = .ok ⟨[], [⟨2023, 6, 7⟩], [], [], none⟩
      ∧ KgcHtml.parseLoop ⟨[], [], [], [], some ⟨2023, 7, 12⟩⟩
          [⟨some "Sperrmüllabholung".data, some ">Fr. den 16.06.2023".data, none⟩,
           ⟨some "Bioabfall".data, some ">Fr. den 16.06.2023".data, none⟩]
          = .ok ⟨[], [], [], [], some ⟨2023, 7, 12⟩⟩ := by
  refine ⟨?_, ?_, ?_, ?_⟩
  · exact html_row_matching_and_break.2.2.1 KgcHtml.emptyWasteData []
      "Glas".data none none (by decide) (by decide) (by decide) (by decide) (by decide)
  · exact html_row_matching_and_break.2.2.2.1 KgcHtml.emptyWasteData []
      "Papier und Sperrmüllabholung".data ">Fr. den 16.06.2023".data none
      [⟨2023, 6, 16⟩] .paper (by decide) (by decide) (by decide) (by rfl)
  · exact html_row_matching_and_break.2.2.2.2.1 ⟨[], [⟨2023, 6, 7⟩], [], [], none⟩
      [⟨some "Bioabfall".data, some ">Fr. den 16.06.2023".data, none⟩]
      "Papier".data none .paper (by decide) (by decide) (by decide)
  · exact html_row_matching_and_break.2.2.2.2.2 ⟨[], [], [], [], some ⟨2023, 7, 12⟩⟩
      [⟨some "Bioabfall".data, some ">Fr. den 16.06.2023".data, none⟩]
      "Sperrmüllabholung".data (some ">Fr. den 16.06.2023".data)
      (by decide) (by decide)

/-- Claim C10, counterexample: the HTML-variant parse does not return Ok
for every input.  A date column whose matched digit groups are non-ASCII
decimal digits makes the unwrapped integer parse panic, so the run aborts
instead of returning. -/
theorem html_unicode_digit_panic :
    KgcHtml.parse
        [⟨some "Restmüll".data,
          some (">Fr. den ".data
            ++ [KgcHtml.arabicDigit 0, KgcHtml.arabicDigit 1, '.',
                KgcHtml.arabicDigit 0, KgcHtml.arabicDigit 2, '.',
                KgcHtml.arabicDigit 2, KgcHtml.arabicDigit 0,
                KgcHtml.arabicDigit 2, KgcHtml.arabicDigit 3]), none⟩]
        = .error () := by
  rfl

/-- Claim C10, amended: the HTML-variant parse never returns a
document-level error: every run either returns Ok of a schedule or
panics, and panicking inputs do exist, so not every input returns Ok;
the ICS-variant parse, in contrast, propagates tokenizer errors to the
caller. -/
theorem html_parse_total_or_panic :
    (∀ rows : List KgcHtml.HtmlRow,
      (∃ w : KgcHtml.WasteData, KgcHtml.parse rows = .ok (.ok w))
        ∨ KgcHtml.parse rows = .error ())
      ∧ (∃ rows : List KgcHtml.HtmlRow, KgcHtml.parse rows = .error ())
      ∧ KgcCore.parse [.error ()] = .error .tokenizeError := by
  refine ⟨fun rows => ?_,
    ⟨[⟨some "Restmüll".data,
        some (">Fr. den ".data
          ++ [KgcHtml.arabicDigit 0, KgcHtml.arabicDigit 1, '.',
              KgcHtml.arabicDigit 0, KgcHtml.arabicDigit 2, '.',
              KgcHtml.arabicDigit 2, KgcHtml.arabicDigit 0,
              KgcHtml.arabicDigit 2, KgcHtml.arabicDigit 3]), none⟩], rfl⟩, rfl⟩
  cases h : KgcHtml.parseLoop KgcHtml.emptyWasteData rows with
  | ok st => exact Or.inl ⟨st, by simp [KgcHtml.parse, h, Except.map]⟩
  | error e => exact Or.inr (by simp [KgcHtml.parse, h, Except.map])
